import Mathlib

/-!
Verification development for the UniversalSerialHub device adapter
(src/DeviceAdapters/UniversalSerialHub/ush.cpp).

The definitions below are a shallow embedding of the core of the adapter:
the frame codec (SplitStringIntoWords, the join loop of
MakeAndSendOutputCommand), the schema builder
(VectorstrToDeviceDescription, PopulateDeviceDescriptionList), the
command router (ReportToDevice branches, ConvertMethodToCommand) and the
poll loop (BusyThread::svc, split into its NoActivity and DataReceived
branches, and CheckIncomingCommand).

C++ machine integers are modelled as Int, C++ float/double as ℚ,
std::string as String, std::vector as List.  Calls that can throw
(std::stoi, std::stof, std::vector::at out of range) are modelled with
Option: a `none` result means the C++ code throws.  MM::MMTime is a
microsecond count, modelled as Int where it is compared and as ℚ where
it is only stored.
-/

namespace Ush

/-! ## Frame codec: SplitStringIntoWords (ush.cpp lines 38-57)

The C++ routine scans `line` with `find`/`substr`: it emits the
substring between consecutive occurrences of `sep` (empty substrings
included), emits the whole line when `sep` does not occur, and emits the
tail after the last separator (the `length()-1` count of the final
`substr` is clamped by `substr` to the remaining length).  The
character-list recursion below computes exactly that word sequence. -/

def splitChars (sep : Char) : List Char → List (List Char)
  | [] => [[]]
  | c :: cs =>
    if c = sep then [] :: splitChars sep cs
    else
      match splitChars sep cs with
      | [] => [[c]]
      | w :: ws => (c :: w) :: ws

def SplitStringIntoWords (line : String) (sep : Char) : List String :=
  (splitChars sep line.data).map String.mk

/-- The join loop of MakeAndSendOutputCommand (ush.cpp lines 1126-1129):
values 0..n-2 each followed by sepWithin, then the last value. -/
def joinWithSep (sep : Char) : List String → String
  | [] => ""
  | [v] => v
  | v :: vs => v ++ String.mk [sep] ++ joinWithSep sep vs

/-! ## Numeric parsing

Models of the C library conversions used by the adapter:
`atoi`/`atof` return 0 when no conversion is possible, while
`std::stoi`/`std::stof` throw (modelled as `none`).  Wire tokens carry
no leading whitespace, so whitespace skipping is omitted. -/

def parseDigitsAux : List Char → Nat → Nat → Nat × Nat × List Char
  | [], v, n => (v, n, [])
  | c :: cs, v, n =>
    if c.isDigit then parseDigitsAux cs (10 * v + (c.toNat - 48)) (n + 1)
    else (v, n, c :: cs)

def parseSign : List Char → Bool × List Char
  | c :: cs => if c = '-' then (true, cs) else if c = '+' then (false, cs) else (false, c :: cs)
  | [] => (false, [])

/-- std::stoi: `none` when the string has no leading integer (the C++
call throws std::invalid_argument). -/
def stoiOpt (s : String) : Option Int :=
  let (neg, cs) := parseSign s.data
  let (v, n, _) := parseDigitsAux cs 0 0
  if n = 0 then none else some (if neg then -(v : Int) else (v : Int))

/-- atoi: 0 when no conversion is possible. -/
def atoiInt (s : String) : Int := (stoiOpt s).getD 0

/-- std::stof: `none` when no conversion is possible (the C++ call
throws); otherwise the exact decimal value as a rational. -/
def stofOpt (s : String) : Option ℚ :=
  let (neg, cs) := parseSign s.data
  let (v, n, rest) := parseDigitsAux cs 0 0
  match rest with
  | '.' :: cs2 =>
    let (f, m, _) := parseDigitsAux cs2 0 0
    if n = 0 ∧ m = 0 then none
    else
      let q : ℚ := (v : ℚ) + (f : ℚ) / ((10 : ℚ) ^ m)
      some (if neg then -q else q)
  | _ => if n = 0 then none else some (if neg then -(v : ℚ) else (v : ℚ))

/-- atof: 0 when no conversion is possible. -/
def atofQ (s : String) : ℚ := (stofOpt s).getD 0

/-- Substring test for `std::string::find(pat) != npos`. -/
def listHasInfix (pat : List Char) : List Char → Bool
  | [] => decide (pat = [])
  | c :: cs => pat.isPrefixOf (c :: cs) || listHasInfix pat cs

def strContains (s pat : String) : Bool := listHasInfix pat.data s.data

/-- Prefix test for `std::string::find(pat) == 0` and strncmp-against-
prefix checks. -/
def strIsPrefix (p s : String) : Bool := p.data.isPrefixOf s.data

/-! ## Reserved words and separators

ush.cpp includes them from ushreserved.h, which is not under src/. -/

namespace ushwords

/-- Modelled from the spec: the five reserved separator characters
declared in ushreserved.h (not under src/).  The spec fixes them only as
mutually distinct characters that do not appear in user-visible strings;
the concrete characters below are representative. -/
def sepSetup : Char := ','

/-- Modelled from the spec: the within-list separator. -/
def sepWithin : Char := '~'

/-- Modelled from the spec: the outbound-frame field separator. -/
def sepOut : Char := '>'

/-- Modelled from the spec: the inbound-frame field separator. -/
def sepIn : Char := '<'

/-- Modelled from the spec: the record-end (frame terminator) character. -/
def sepEnd : Char := '!'

/-- Modelled from the spec: the per-instrument timeout key of the setup
grammar, also the fixed timeout pseudo-command of the wire protocol
(ushreserved.h is not under src/). -/
def timeout : String := "Timeout"

/-- Modelled from the spec: the command key of the setup grammar. -/
def cmd : String := "Command"

/-- Modelled from the spec: the common prefix of the property keys. -/
def prop : String := "Property"

/-- Modelled from the spec: the sub-tag distinguishing action property
keys (present as a substring iff the property is an action property). -/
def act : String := "Action"

/-- Modelled from the spec: the plain String property key. -/
def prop_str : String := "PropertyString"

/-- Modelled from the spec: the plain Integer property key. -/
def prop_int : String := "PropertyInteger"

/-- Modelled from the spec: the plain Float property key. -/
def prop_float : String := "PropertyFloat"

/-- Modelled from the spec: the action String property key. -/
def prop_str_act : String := "PropertyStringAction"

/-- Modelled from the spec: the action Integer property key. -/
def prop_int_act : String := "PropertyIntegerAction"

/-- Modelled from the spec: the action Float property key. -/
def prop_float_act : String := "PropertyFloatAction"

/-- Modelled from the spec: the read-only flag literal for true. -/
def wtrue : String := "true"

/-- Modelled from the spec: the read-only flag literal for false. -/
def wfalse : String := "false"

/-- Modelled from the spec: logical method name for opening a shutter. -/
def set_open : String := "set-open"

/-- Modelled from the spec: logical method name for reading a shutter. -/
def get_open : String := "get-open"

/-- Modelled from the spec: logical method name for moving a stage. -/
def set_position_um : String := "set-position"

/-- Modelled from the spec: logical method name for reading a stage. -/
def get_position_um : String := "get-position"

/-- Modelled from the spec: logical method name for homing a stage. -/
def home : String := "home"

/-- Modelled from the spec: logical method name for stopping a stage. -/
def stop : String := "stop"

/-- Modelled from the spec: the sentinel wire token meaning the firmware
does not support a method. -/
def not_supported : String := "NA"

/-- Modelled from the spec: the list-end sentinel of discovery. -/
def device_list_end : String := "list-end"

end ushwords

/-! ## Keyword constants from MMDeviceConstants.h (not under src/) -/

/-- Modelled from the spec: MM::g_Keyword_Name, the literal key "Name"
opening the setup-line group of an instrument. -/
def g_Keyword_Name : String := "Name"

/-- Modelled from the spec: MM::g_Keyword_Description. -/
def g_Keyword_Description : String := "Description"

/-- Modelled from the spec: the Shutter kind tag
(MM::g_Keyword_CoreShutter). -/
def g_Keyword_CoreShutter : String := "Shutter"

/-- Modelled from the spec: the StateDevice kind tag
(MM::g_Keyword_State). -/
def g_Keyword_State : String := "StateDevice"

/-- The Stage kind tag (a string literal in ush.cpp line 888). -/
def kindStage : String := "Stage"

/-- Modelled from the spec: the XYStage kind tag
(MM::g_Keyword_CoreXYStage). -/
def g_Keyword_CoreXYStage : String := "XYStage"

/-- The Generic kind tag (a string literal in ush.cpp lines 82, 112,
894). -/
def kindGeneric : String := "Generic"

/-- Modelled from the spec: the MM::DeviceType enumerator
MM::GenericDevice of MMDeviceConstants.h (not under src/).  ush.cpp line
895 assigns this enumerator to the std::string `type` field, which
resolves to the char overload of std::string::operator=, producing the
one-character string of the numeric code of the enumerator (8 in the
MMDevice API). -/
def mmGenericDeviceEnum : Nat := 8

/-- Modelled from the spec: MM::g_Keyword_Position, the name of a
Position property of a stage. -/
def g_Keyword_Position : String := "Position"

/-! ## Return and error codes

DEVICE_* codes come from MMDeviceConstants.h and the usherrors
namespace from ushreserved.h; neither header is under src/. -/

/-- Modelled from the spec: MMDeviceConstants.h success code (0). -/
def DEVICE_OK : Int := 0

/-- Modelled from the spec: MMDeviceConstants.h generic failure code
(nonzero). -/
def DEVICE_ERR : Int := 1

/-- Modelled from the spec: MMDeviceConstants.h code for an operation
the firmware does not support. -/
def DEVICE_UNSUPPORTED_COMMAND : Int := 11

namespace usherrors

/-- Modelled from the spec: LostCommunication error code (ushreserved.h
is not under src/; the exact numerals of the adp codes are
representative, distinct and nonzero). -/
def adp_lost_communication : Int := 502

/-- Modelled from the spec: StringNotRecognized error code. -/
def adp_string_not_recognized : Int := 503

/-- Modelled from the spec: DeviceNotRecognized error code. -/
def adp_device_not_recognized : Int := 504

/-- Modelled from the spec: CommandNotRecognized error code. -/
def adp_device_command_not_recognized : Int := 505

/-- Modelled from the spec: ValueNotAllowed error code. -/
def adp_device_command_value_not_allowed : Int := 506

/-- Modelled from the spec: the firmware "no error" code, fixed to 0 by
the spec (§4.5). -/
def ctr_ok : Int := 0

/-- Modelled from the spec: the firmware BUSY code, a fixed nonzero
code distinguished from all other codes (exact value in ushreserved.h,
not under src/). -/
def ctr_busy : Int := 1

end usherrors

/-! ## Data model (mmdevicedescription and friends, declared in ush.h) -/

inductive MMPropertyType where
  | String
  | Integer
  | Float
  deriving DecidableEq, Repr

structure mmmethoddescription where
  method : String := ""
  command : String := ""
  deriving DecidableEq, Repr

structure mmpropertydescription where
  name : String := ""
  type : MMPropertyType := .String
  valueString : String := ""
  valueInteger : Int := 0
  valueFloat : ℚ := 0
  isReadOnly : Bool := false
  isAction : Bool := false
  cmdAction : String := ""
  isPreini : Bool := false
  allowedValues : List String := []
  lowerLimitInteger : Int := 0
  upperLimitInteger : Int := 0
  lowerLimitFloat : ℚ := 0
  upperLimitFloat : ℚ := 0
  deriving DecidableEq, Repr

structure mmdevicedescription where
  name : String := ""
  type : String := ""
  description : String := ""
  /-- MM::MMTime microseconds, only stored by the builder. -/
  timeoutUs : ℚ := 0
  methods : List mmmethoddescription := []
  properties : List mmpropertydescription := []
  isValid : Bool := true
  reasonWhyInvalid : String := ""
  deriving DecidableEq, Repr

/-! ## Schema Builder: UniHub::VectorstrToDeviceDescription
(ush.cpp lines 859-1107) and UniHub::PopulateDeviceDescriptionList
(lines 822-857).

The C++ body is a for loop over the accumulated setup lines with early
`break` on validation failure; each iteration is modelled by
`processSetupLine`, returning the updated descriptor and a flag that is
true when the loop breaks, or `none` when the iteration throws
(std::vector::at past the end, std::stoi/std::stof on a non-numeric
field). -/

/-- Mark the descriptor invalid, appending `msg ++ s` to
reasonWhyInvalid, and break out of the loop. -/
def mkInvalid (dd : mmdevicedescription) (msg s : String) : mmdevicedescription × Bool :=
  ({ dd with isValid := false, reasonWhyInvalid := dd.reasonWhyInvalid ++ msg ++ s }, true)

/-- Non-action property lines (ush.cpp lines 921-1006): exactly 5
fields; field 3 is the read-only literal; when not read-only, field 4
holds the allowed-values list (String) or exactly two numeric bounds
(Integer/Float). -/
def parsePlainProp (dd : mmdevicedescription) (s : String) (words : List String) :
    Option (mmdevicedescription × Bool) :=
  if words.length ≠ 5 then some (mkInvalid dd "Invalid property: " s)
  else
    let w0 := words.getD 0 ""
    let pd0 : mmpropertydescription := { isAction := false, name := words.getD 1 "" }
    if w0 = ushwords.prop_str then
      let pd1 := { pd0 with type := .String, valueString := words.getD 2 "" }
      if words.getD 3 "" = ushwords.wtrue then
        some ({ dd with properties := dd.properties ++ [{ pd1 with isReadOnly := true }] }, false)
      else if words.getD 3 "" = ushwords.wfalse then
        let valuelist := SplitStringIntoWords (words.getD 4 "") ushwords.sepWithin
        some ({ dd with properties :=
          dd.properties ++ [{ pd1 with isReadOnly := false, allowedValues := valuelist }] }, false)
      else some (mkInvalid dd "Unable to determine read-only status: " s)
    else if w0 = ushwords.prop_float then
      match stofOpt (words.getD 2 "") with
      | none => none
      | some v =>
        let pd1 := { pd0 with type := .Float, valueFloat := v }
        if words.getD 3 "" = ushwords.wtrue then
          some ({ dd with properties := dd.properties ++ [{ pd1 with isReadOnly := true }] }, false)
        else if words.getD 3 "" = ushwords.wfalse then
          let valuelist := SplitStringIntoWords (words.getD 4 "") ushwords.sepWithin
          if valuelist.length ≠ 2 then some (mkInvalid dd "Unable to determine property limits: " s)
          else
            match stofOpt (valuelist.getD 0 ""), stofOpt (valuelist.getD 1 "") with
            | some lo, some hi =>
              some ({ dd with properties := dd.properties ++
                [{ pd1 with isReadOnly := false, lowerLimitFloat := lo, upperLimitFloat := hi }] }, false)
            | _, _ => none
        else some (mkInvalid dd "Unable to determine read-only status: " s)
    else if w0 = ushwords.prop_int then
      match stoiOpt (words.getD 2 "") with
      | none => none
      | some v =>
        let pd1 := { pd0 with type := .Integer, valueInteger := v }
        if words.getD 3 "" = ushwords.wtrue then
          some ({ dd with properties := dd.properties ++ [{ pd1 with isReadOnly := true }] }, false)
        else if words.getD 3 "" = ushwords.wfalse then
          let valuelist := SplitStringIntoWords (words.getD 4 "") ushwords.sepWithin
          if valuelist.length ≠ 2 then some (mkInvalid dd "Unable to determine property limits: " s)
          else
            match stoiOpt (valuelist.getD 0 ""), stoiOpt (valuelist.getD 1 "") with
            | some lo, some hi =>
              some ({ dd with properties := dd.properties ++
                [{ pd1 with isReadOnly := false, lowerLimitInteger := lo, upperLimitInteger := hi }] }, false)
            | _, _ => none
        else some (mkInvalid dd "Unable to determine read-only status: " s)
    else some (mkInvalid dd "Unable to determine property type: " s)

/-- Action property lines (ush.cpp lines 1007-1099): exactly 7 fields;
field 4 is the wire command, field 5 the pre-init literal (left at its
default when the literal is neither "true" nor "false", mirroring the
indeterminate C++ field), field 6 the allowed values or bounds. -/
def parseActionProp (dd : mmdevicedescription) (s : String) (words : List String) :
    Option (mmdevicedescription × Bool) :=
  if words.length ≠ 7 then some (mkInvalid dd "Invalid property: " s)
  else
    let w0 := words.getD 0 ""
    let preini := words.getD 5 "" = ushwords.wtrue
    let pd0 : mmpropertydescription :=
      { isAction := true, name := words.getD 1 "", cmdAction := words.getD 4 "", isPreini := preini }
    if w0 = ushwords.prop_str_act then
      let pd1 := { pd0 with type := .String, valueString := words.getD 2 "" }
      if words.getD 3 "" = ushwords.wtrue then
        some ({ dd with properties := dd.properties ++ [{ pd1 with isReadOnly := true }] }, false)
      else if words.getD 3 "" = ushwords.wfalse then
        let valuelist := SplitStringIntoWords (words.getD 6 "") ushwords.sepWithin
        some ({ dd with properties :=
          dd.properties ++ [{ pd1 with isReadOnly := false, allowedValues := valuelist }] }, false)
      else some (mkInvalid dd "Unable to determine read-only status " s)
    else if w0 = ushwords.prop_float_act then
      match stofOpt (words.getD 2 "") with
      | none => none
      | some v =>
        let pd1 := { pd0 with type := .Float, valueFloat := v }
        if words.getD 3 "" = ushwords.wtrue then
          some ({ dd with properties := dd.properties ++ [{ pd1 with isReadOnly := true }] }, false)
        else if words.getD 3 "" = ushwords.wfalse then
          let valuelist := SplitStringIntoWords (words.getD 6 "") ushwords.sepWithin
          if valuelist.length ≠ 2 then some (mkInvalid dd "Unable to determine property limits: " s)
          else
            match stofOpt (valuelist.getD 0 ""), stofOpt (valuelist.getD 1 "") with
            | some lo, some hi =>
              some ({ dd with properties := dd.properties ++
                [{ pd1 with isReadOnly := false, lowerLimitFloat := lo, upperLimitFloat := hi }] }, false)
            | _, _ => none
        else some (mkInvalid dd "Unable to determine read-only status: " s)
    else if w0 = ushwords.prop_int_act then
      match stoiOpt (words.getD 2 "") with
      | none => none
      | some v =>
        let pd1 := { pd0 with type := .Integer, valueInteger := v }
        if words.getD 3 "" = ushwords.wtrue then
          some ({ dd with properties := dd.properties ++ [{ pd1 with isReadOnly := true }] }, false)
        else if words.getD 3 "" = ushwords.wfalse then
          let valuelist := SplitStringIntoWords (words.getD 6 "") ushwords.sepWithin
          if valuelist.length ≠ 2 then some (mkInvalid dd "Unable to determine property limits: " s)
          else
            match stoiOpt (valuelist.getD 0 ""), stoiOpt (valuelist.getD 1 "") with
            | some lo, some hi =>
              some ({ dd with properties := dd.properties ++
                [{ pd1 with isReadOnly := false, lowerLimitInteger := lo, upperLimitInteger := hi }] }, false)
            | _, _ => none
        else some (mkInvalid dd "Unable to determine read-only status: " s)
    else some (mkInvalid dd "Unable to determine property type: " s)

/-- One iteration of the for loop of VectorstrToDeviceDescription
(ush.cpp lines 865-1103).  Keys that match no branch are skipped
unchanged: the if/else-if chain of the source has no final else. -/
def processSetupLine (dd : mmdevicedescription) (s : String) :
    Option (mmdevicedescription × Bool) :=
  let words := SplitStringIntoWords s ushwords.sepSetup
  if words.length < 2 then some (mkInvalid dd "Invalid string: " s)
  else if words.getD 0 "" = g_Keyword_Name then
    let nm := words.getD 1 ""
    let dd1 := { dd with name := nm }
    if strIsPrefix g_Keyword_CoreShutter nm then
      some ({ dd1 with type := g_Keyword_CoreShutter }, false)
    else if strIsPrefix g_Keyword_State nm then
      some ({ dd1 with type := g_Keyword_State }, false)
    else if strIsPrefix kindStage nm then
      some ({ dd1 with type := kindStage }, false)
    else if strIsPrefix g_Keyword_CoreXYStage nm then
      some ({ dd1 with type := g_Keyword_CoreXYStage }, false)
    else if strIsPrefix kindGeneric nm then
      some ({ dd1 with type := String.mk [Char.ofNat mmGenericDeviceEnum] }, false)
    else some (mkInvalid dd1 "Unable to determine device type for " s)
  else if words.getD 0 "" = g_Keyword_Description then
    some ({ dd with description := words.getD 1 "" }, false)
  else if words.getD 0 "" = ushwords.timeout then
    some ({ dd with timeoutUs := 1000 * atofQ (words.getD 1 "") }, false)
  else if words.getD 0 "" = ushwords.cmd then
    if words.length < 3 then none
    else some ({ dd with methods := dd.methods ++ [⟨words.getD 1 "", words.getD 2 ""⟩] }, false)
  else if strIsPrefix ushwords.prop (words.getD 0 "") then
    if strContains (words.getD 0 "") ushwords.act = false then parsePlainProp dd s words
    else parseActionProp dd s words
  else some (dd, false)

def vectorstrGo (dd : mmdevicedescription) : List String → Option mmdevicedescription
  | [] => some dd
  | s :: rest =>
    match processSetupLine dd s with
    | none => none
    | some (dd1, brk) => if brk then some dd1 else vectorstrGo dd1 rest

def VectorstrToDeviceDescription (vs : List String) : Option mmdevicedescription :=
  vectorstrGo {} vs

/-- First field of a setup line (`words[0]`; SplitStringIntoWords never
returns an empty vector). -/
def firstField (l : String) : String :=
  (SplitStringIntoWords l ushwords.sepSetup).headD ""

/-- The read loop of PopulateDeviceDescriptionList (ush.cpp lines
834-854): a line whose first field is "Name" closes the accumulated
group (when non-empty) by converting it and appending the descriptor;
every line is then accumulated; when the stream ends, the final group is
converted and appended unconditionally. -/
def populateGo (acc : List mmdevicedescription) (group : List String) :
    List String → Option (List mmdevicedescription)
  | [] => (VectorstrToDeviceDescription group).map (fun dd => acc ++ [dd])
  | line :: rest =>
    if firstField line = g_Keyword_Name ∧ group ≠ [] then
      match VectorstrToDeviceDescription group with
      | none => none
      | some dd => populateGo (acc ++ [dd]) [line] rest
    else populateGo acc (group ++ [line]) rest

/-- UniHub::PopulateDeviceDescriptionList on the stream of received
setup lines: the while loop breaks at the first "list-end" sentinel
(lines after it are never read), and a read failure is the exhaustion of
the stream; both exits convert the final accumulated group. -/
def PopulateDeviceDescriptionList (stream : List String) : Option (List mmdevicedescription) :=
  populateGo [] [] (stream.takeWhile (fun l => l ≠ ushwords.device_list_end))

/-- Number of setup lines whose first field is "Name". -/
def nameCount (lines : List String) : Nat :=
  (lines.filter (fun l => firstField l = g_Keyword_Name)).length

/-! ## Command Router -/

/-- UniHub::ConvertMethodToCommand (ush.cpp lines 1109-1121): linear
scan of the instrument methods, first match wins, empty string when
the method is absent. -/
def UniHub.ConvertMethodToCommand (d : mmdevicedescription) (methodName : String) : String :=
  match d.methods.find? (fun cd => cd.method = methodName) with
  | some cd => cd.command
  | none => ""

/-- UniHub::MakeAndSendOutputCommand (ush.cpp lines 1123-1132),
modelled as the frame handed to the transport.  The C++ loop bound
`values.size()-1` is a size_t: for an empty values vector it underflows
and the first `values.at(0)` (and the final `values.at(values.size()-1)`)
is out of bounds, throwing std::out_of_range — modelled as `none`. -/
def UniHub.MakeAndSendOutputCommand (devicename command : String) (values : List String) :
    Option String :=
  match values with
  | [] => none
  | vs =>
    some (devicename ++ String.mk [ushwords.sepOut] ++ command ++ String.mk [ushwords.sepOut] ++
      joinWithSep ushwords.sepWithin vs ++ String.mk [ushwords.sepEnd])

/-- The property loop of UniHub::ReportToDevice (ush.cpp lines 420-459;
repeated verbatim for the State, Stage, XYStage and Generic branches at
lines 475-515, 544-584, 613-653 and 668-708): scan the properties for
the first one whose cmdAction matches the wire command; validate the
first value against allowed_values (String) or the limits
(Integer/Float); commit the cached value on success, leave it unchanged
and return ValueNotAllowed on failure; CommandNotRecognized when no
property matches. -/
def scanProps (command : String) (vals : List String) :
    List mmpropertydescription → List mmpropertydescription × Int
  | [] => ([], usherrors.adp_device_command_not_recognized)
  | pd :: rest =>
    if pd.cmdAction = command then
      match pd.type with
      | .String =>
        if (vals.headD "") ∈ pd.allowedValues then
          ({ pd with valueString := vals.headD "" } :: rest, DEVICE_OK)
        else (pd :: rest, usherrors.adp_device_command_value_not_allowed)
      | .Integer =>
        let v := atoiInt (vals.headD "")
        if v < pd.lowerLimitInteger ∨ v > pd.upperLimitInteger then
          (pd :: rest, usherrors.adp_device_command_value_not_allowed)
        else ({ pd with valueInteger := v } :: rest, DEVICE_OK)
      | .Float =>
        let v := atofQ (vals.headD "")
        if v < pd.lowerLimitFloat ∨ v > pd.upperLimitFloat then
          (pd :: rest, usherrors.adp_device_command_value_not_allowed)
        else ({ pd with valueFloat := v } :: rest, DEVICE_OK)
    else
      let (rest1, ret) := scanProps command vals rest
      (pd :: rest1, ret)

/-! ## Instrument wrappers (UshShutter, UshStage) -/

structure ShutterState where
  open_ : Bool := false
  updating : Bool := false
  busy : Bool := false
  lastCommandTime : Int := 0
  timeoutUs : ℚ := 0
  deriving DecidableEq, Repr

structure StageState where
  position_um_ : ℚ := 0
  lowerLimit_um_ : ℚ := 0
  upperLimit_um_ : ℚ := 0
  updating : Bool := false
  busy : Bool := false
  lastCommandTime : Int := 0
  timeoutUs : ℚ := 0
  deriving DecidableEq, Repr

/-- Truncation toward zero, the effect of the C++ cast
`(long long)pos`. -/
def ratTruncToInt (q : ℚ) : Int := q.num / (q.den : Int)

/-- First-match in-place property update (the propertyIndex_ scan of
ush.cpp lines 2029-2036). -/
def updateFirstProp (nm : String) (f : mmpropertydescription → mmpropertydescription) :
    List mmpropertydescription → List mmpropertydescription
  | [] => []
  | p :: rest => if p.name = nm then f p :: rest else p :: updateFirstProp nm f rest

/-- Modelled from the spec: MM::Device::HasProperty of the plugin
framework (not under src/) — the device property table is created
from the descriptor properties at initialization, so the check holds
iff a property of that name exists in the descriptor. -/
def hasProp (d : mmdevicedescription) (nm : String) : Bool :=
  d.properties.any (fun p => p.name = nm)

/-- UshShutter::SetOpen (ush.cpp lines 1435-1454).  In the updating
branch (entered from ReportToDevice) the guard compares the bool
parameter against the int literals 0 and 1, so it can never fire; the
non-updating branch formats and sends the wire command and marks the
shutter busy.  Result: new shutter state, return code, and the outbound
frame when one is sent. -/
def UshShutter.SetOpen (d : mmdevicedescription) (st : ShutterState) (now : Int) (openv : Bool) :
    ShutterState × Int × Option String :=
  if st.updating then
    if (if openv then (1 : Int) else 0) ≠ 0 ∧ (if openv then (1 : Int) else 0) ≠ 1 then
      (st, usherrors.adp_device_command_value_not_allowed, none)
    else ({ st with open_ := openv, updating := false }, DEVICE_OK, none)
  else
    let vals := [if openv then "1" else "0"]
    let cmd := UniHub.ConvertMethodToCommand d ushwords.set_open
    if cmd.length = 0 then (st, DEVICE_ERR, none)
    else if cmd = ushwords.not_supported then (st, DEVICE_UNSUPPORTED_COMMAND, none)
    else ({ st with lastCommandTime := now, open_ := openv, busy := true }, DEVICE_OK,
      UniHub.MakeAndSendOutputCommand d.name cmd vals)

/-- UshStage::SetPositionUm (ush.cpp lines 2018-2053).  In the updating
branch the position is validated against the stage limits before being
stored (the error return leaves both the position and the updating flag
untouched); on success the Position property of the registry is mirrored when
present.  The non-updating branch sends the wire command. -/
def UshStage.SetPositionUm (d : mmdevicedescription) (st : StageState) (now : Int) (pos : ℚ) :
    mmdevicedescription × StageState × Int × Option String :=
  if st.updating then
    if pos < st.lowerLimit_um_ ∨ pos > st.upperLimit_um_ then
      (d, st, usherrors.adp_device_command_value_not_allowed, none)
    else
      let d1 :=
        if hasProp d g_Keyword_Position then
          { d with properties :=
            updateFirstProp g_Keyword_Position (fun p => { p with valueFloat := pos }) d.properties }
        else d
      (d1, { st with position_um_ := pos, updating := false }, DEVICE_OK, none)
  else
    let vals := [toString (ratTruncToInt pos)]
    let cmd := UniHub.ConvertMethodToCommand d ushwords.set_position_um
    if cmd.length = 0 then (d, st, DEVICE_ERR, none)
    else if cmd = ushwords.not_supported then (d, st, DEVICE_UNSUPPORTED_COMMAND, none)
    else (d, { st with lastCommandTime := now, position_um_ := pos, busy := true }, DEVICE_OK,
      UniHub.MakeAndSendOutputCommand d.name cmd vals)

/-- The Shutter branch of UniHub::ReportToDevice (ush.cpp lines
396-461): the fixed timeout pseudo-command first; then the method scan —
only the set-open/get-open methods update state, through SetOpen with
the updating flag raised and the first value converted int→bool; then
the shared property scan. -/
def UniHub.ReportToShutter (d : mmdevicedescription) (st : ShutterState) (now : Int)
    (command : String) (vals : List String) : mmdevicedescription × ShutterState × Int :=
  if command = ushwords.timeout then
    (d, { st with lastCommandTime := now, timeoutUs := atofQ (vals.headD "") * 1000 }, DEVICE_OK)
  else
    match d.methods.find? (fun md => md.command = command) with
    | some md =>
      if md.method = ushwords.set_open ∨ md.method = ushwords.get_open then
        let r := UshShutter.SetOpen d { st with updating := true } now (atoiInt (vals.headD "") != 0)
        (d, r.1, r.2.1)
      else (d, st, DEVICE_OK)
    | none =>
      let (props1, ret) := scanProps command vals d.properties
      ({ d with properties := props1 }, st, ret)

/-- The Stage branch of UniHub::ReportToDevice (ush.cpp lines 519-585):
the timeout pseudo-command; then the method scan — the four methods
set-position/get-position/home/stop all update state through
SetPositionUm with the updating flag raised and the first value parsed
with atof; then the shared property scan. -/
def UniHub.ReportToStage (d : mmdevicedescription) (st : StageState) (now : Int)
    (command : String) (vals : List String) : mmdevicedescription × StageState × Int :=
  if command = ushwords.timeout then
    (d, { st with lastCommandTime := now, timeoutUs := atofQ (vals.headD "") * 1000 }, DEVICE_OK)
  else
    match d.methods.find? (fun md => md.command = command) with
    | some md =>
      if md.method = ushwords.set_position_um ∨ md.method = ushwords.get_position_um ∨
          md.method = ushwords.home ∨ md.method = ushwords.stop then
        let r := UshStage.SetPositionUm d { st with updating := true } now (atofQ (vals.headD ""))
        (r.1, r.2.1, r.2.2.1)
      else (d, st, DEVICE_OK)
    | none =>
      let (props1, ret) := scanProps command vals d.properties
      ({ d with properties := props1 }, st, ret)

/-! ## Poll loop (BusyThread::svc, ush.cpp lines 1215-1300) -/

structure InstrumentState where
  name : String := ""
  isBusy : Bool := false
  /-- MM::MMTime microseconds. -/
  lastCommandTime : Int := 0
  /-- MM::MMTime microseconds. -/
  timeoutUs : Int := 0
  deriving DecidableEq, Repr

structure PollState where
  registry : List mmdevicedescription := []
  instruments : List InstrumentState := []
  lastError : Int := 0
  lastErrorText : String := ""
  deriving DecidableEq, Repr

/-- UniHub::SetBusy, dispatched through GetDevice(name): the first
instrument of that name is updated. -/
def setBusyFirst (nm : String) (b : Bool) : List InstrumentState → List InstrumentState
  | [] => []
  | i :: rest => if i.name = nm then { i with isBusy := b } :: rest else i :: setBusyFirst nm b rest

/-- UniHub::SetBusy followed by UniHub::SetLastCommandTime on the same
name (the ctr_busy branch of svc, ush.cpp lines 1282-1286). -/
def setBusyTimeFirst (nm : String) (now : Int) : List InstrumentState → List InstrumentState
  | [] => []
  | i :: rest =>
    if i.name = nm then { i with isBusy := true, lastCommandTime := now } :: rest
    else i :: setBusyTimeFirst nm now rest

/-- UniHub::CheckIncomingCommand (ush.cpp lines 1186-1201).  Modelled
from the spec: GetDevice (plugin framework, not under src/) returns
null exactly when the name matches no known instrument, so the known
names stand in for the device table. -/
def UniHub.CheckIncomingCommand (knownNames : List String) (vs : List String) : Int :=
  if vs.length ≠ 3 then usherrors.adp_string_not_recognized
  else if ¬ (vs.headD "") ∈ knownNames then usherrors.adp_device_not_recognized
  else DEVICE_OK

/-- The NoActivity branch of one poll cycle (ush.cpp lines 1244-1257):
the busy instruments are listed in registry order; the first whose
elapsed time since its last command strictly exceeds its timeout is
marked not busy and ReportTimeoutError raises the LostCommunication
error for it (returned as `some name`); the loop then breaks, so all
later instruments are untouched. -/
def BusyThread.noActivityStep (insts : List InstrumentState) (now : Int) :
    List InstrumentState × Option String :=
  match (insts.filter (fun i => i.isBusy)).find?
      (fun i => now - i.lastCommandTime > i.timeoutUs) with
  | none => (insts, none)
  | some i => (setBusyFirst i.name false insts, some i.name)

/-- The DataReceived branch of one poll cycle (ush.cpp lines
1258-1296): split the frame on the inbound separator, validate it with
CheckIncomingCommand (on failure WriteError records the error and the
frame is discarded), strip the firmware error code from the value list,
classify it (ok / busy / other), and forward the remaining values to
ReportToDevice only when the code is ok or busy and values remain.  The
result pairs the new poll state with the ReportToDevice invocation, if
any; `none` overall models the std::stoi throw on a non-numeric error
code. -/
def BusyThread.dataReceivedStep (st : PollState) (now : Int) (ans : String) :
    Option (PollState × Option (String × String × List String)) :=
  let vs := SplitStringIntoWords ans ushwords.sepIn
  let chk := UniHub.CheckIncomingCommand (st.instruments.map (fun i => i.name)) vs
  if chk ≠ DEVICE_OK then
    some ({ st with lastError := chk, lastErrorText := ans }, none)
  else
    let devicename := vs.headD ""
    let command := vs.getD 1 ""
    let vals0 := SplitStringIntoWords (vs.getD 2 "") ushwords.sepWithin
    let strerr := vals0.headD ""
    let vals := vals0.tail
    match stoiOpt strerr with
    | none => none
    | some err =>
      let st1 :=
        if err = usherrors.ctr_ok then
          { st with instruments := setBusyFirst devicename false st.instruments }
        else if err = usherrors.ctr_busy then
          { st with instruments := setBusyTimeFirst devicename now st.instruments }
        else
          { st with instruments := setBusyFirst devicename false st.instruments,
                    lastError := err, lastErrorText := ans }
      let fwd :=
        if (err = usherrors.ctr_ok ∨ err = usherrors.ctr_busy) ∧ vals ≠ [] then
          some (devicename, command, vals)
        else none
      some (st1, fwd)

/-- The String half of the descriptor bounds invariant (spec §3): a
non-read-only String property has a non-empty allowed_values list. -/
def PropOk (pd : mmpropertydescription) : Prop :=
  pd.type = .String → pd.isReadOnly = false → pd.allowedValues ≠ []

/-! ## Concrete fixtures used by witnesses and counterexamples -/

/-- A complete sample discovery stream terminated by the list-end
sentinel. -/
def streamSample : List String :=
  ["Name,Shutter1", "Description,test shutter", "list-end"]

/-- The descriptor the schema builder produces from streamSample. -/
def ddShutterSample : mmdevicedescription :=
  { name := "Shutter1", type := g_Keyword_CoreShutter, description := "test shutter" }

/-- The non-read-only String property the builder produces from the
setup line PropertyString,P,a,false,a~b. -/
def pdStrSample : mmpropertydescription :=
  { name := "P", type := .String, valueString := "a", isReadOnly := false,
    allowedValues := ["a", "b"] }

/-- The descriptor the builder produces from a Name line followed by
that String property line. -/
def ddStrSample : mmdevicedescription :=
  { name := "Shutter1", type := g_Keyword_CoreShutter, properties := [pdStrSample] }

/-- A sample non-read-only Integer action property with limits 0..10. -/
def pdIntSample : mmpropertydescription :=
  { name := "P", type := .Integer, cmdAction := "X",
    lowerLimitInteger := 0, upperLimitInteger := 10 }

/-- A sample non-read-only Float action property with limits 0..10. -/
def pdFloatSample : mmpropertydescription :=
  { name := "Q", type := .Float, cmdAction := "Y",
    lowerLimitFloat := 0, upperLimitFloat := 10 }

/-- A sample stage descriptor whose only method maps "home" to the wire
command "H". -/
def dStageSample : mmdevicedescription :=
  { name := "Stage1", type := kindStage, methods := [⟨ushwords.home, "H"⟩] }

/-- A sample stage runtime state with limits 0..100. -/
def stStageSample : StageState :=
  { position_um_ := 50, lowerLimit_um_ := 0, upperLimit_um_ := 100 }

/-- A sample poll state with a single known instrument "Dev1", busy
since time 0 with a 1 s timeout. -/
def pollSample : PollState :=
  { instruments := [{ name := "Dev1", isBusy := true, lastCommandTime := 0, timeoutUs := 1000000 }] }

/-- A busy instrument with a 200 ms timeout whose last command was at
time 0 (the timeout scenario of the spec). -/
def instDeadlineSample : InstrumentState :=
  { name := "S1", isBusy := true, lastCommandTime := 0, timeoutUs := 200000 }

/-! # Theorems

Helper lemmas first, then one theorem (plus witness or counterexample)
per claim. -/

theorem string_mk_data (s : String) : String.mk s.data = s := rfl

theorem string_data_append (a b : String) : (a ++ b).data = a.data ++ b.data := rfl

theorem splitChars_ne_nil (sep : Char) (cs : List Char) : splitChars sep cs ≠ [] := by
  induction cs with
  | nil => simp [splitChars]
  | cons c cs ih =>
    simp only [splitChars]
    split
    · simp
    · cases h : splitChars sep cs with
      | nil => exact absurd h ih
      | cons w ws => simp [h]

theorem SplitStringIntoWords_ne_nil (line : String) (sep : Char) :
    SplitStringIntoWords line sep ≠ [] := by
  simp [SplitStringIntoWords, splitChars_ne_nil]

theorem splitChars_of_not_mem {sep : Char} {w : List Char} (h : sep ∉ w) :
    splitChars sep w = [w] := by
  induction w with
  | nil => rfl
  | cons c cs ih =>
    simp only [List.mem_cons, not_or] at h
    simp only [splitChars, if_neg (Ne.symm h.1), ih h.2]

theorem splitChars_append_sep {sep : Char} {w rest : List Char} (h : sep ∉ w) :
    splitChars sep (w ++ sep :: rest) = w :: splitChars sep rest := by
  induction w with
  | nil => simp [splitChars]
  | cons c cs ih =>
    simp only [List.mem_cons, not_or] at h
    simp only [List.cons_append, splitChars, if_neg (Ne.symm h.1)]
    rw [show cs.append (sep :: rest) = cs ++ sep :: rest from rfl, ih h.2]

theorem split_join_of_ne_nil {sep : Char} {fields : List String} (hne : fields ≠ [])
    (hsep : ∀ f ∈ fields, sep ∉ f.data) :
    SplitStringIntoWords (joinWithSep sep fields) sep = fields := by
  induction fields with
  | nil => exact absurd rfl hne
  | cons v vs ih =>
    cases vs with
    | nil =>
      have hv := hsep v (by simp)
      simp [SplitStringIntoWords, joinWithSep, splitChars_of_not_mem hv, string_mk_data]
    | cons w ws =>
      have hv := hsep v (by simp)
      have hrest : ∀ f ∈ w :: ws, sep ∉ f.data := fun f hf => hsep f (by simp [hf])
      have ihr := ih (by simp) hrest
      simp only [joinWithSep, SplitStringIntoWords] at ihr ⊢
      have hdata : (v ++ String.mk [sep] ++ joinWithSep sep (w :: ws)).data =
          v.data ++ sep :: (joinWithSep sep (w :: ws)).data := by
        simp [string_data_append]
      rw [hdata, splitChars_append_sep hv]
      simp [string_mk_data, ihr]

/-- Claim C5: Frame Codec round-trip — joining a non-empty sequence of
separator-free fields with a separator and splitting on it returns the
original fields, and splitting a line with no occurrence of the
separator yields the single-element sequence of the whole line, empty
fields preserved. -/
theorem C5_frame_codec_round_trip (sep : Char) (fields : List String) (line : String)
    (hne : fields ≠ []) (hsep : ∀ f ∈ fields, sep ∉ f.data) (hline : sep ∉ line.data) :
    SplitStringIntoWords (joinWithSep sep fields) sep = fields ∧
    SplitStringIntoWords line sep = [line] := by
  refine ⟨split_join_of_ne_nil hne hsep, ?_⟩
  simp [SplitStringIntoWords, splitChars_of_not_mem hline, string_mk_data]

/-- Witness for C5 at a concrete input, fields containing an empty
trailing field. -/
theorem C5_frame_codec_round_trip_witness :
    SplitStringIntoWords (joinWithSep ',' ["ab", "c", ""]) ',' = ["ab", "c", ""] ∧
    SplitStringIntoWords "xyz" ',' = ["xyz"] :=
  C5_frame_codec_round_trip ',' ["ab", "c", ""] "xyz" (by decide) (by decide) (by decide)

theorem joinWithSep_data (sep : Char) :
    ∀ vs : List String, (joinWithSep sep vs).data = List.intercalate [sep] (vs.map (fun v => v.data))
  | [] => by simp [joinWithSep, List.intercalate]
  | [v] => by simp [joinWithSep, List.intercalate, List.intersperse]
  | v :: w :: ws => by
    have ih := joinWithSep_data sep (w :: ws)
    simp only [joinWithSep, string_data_append, ih, List.map_cons, List.intercalate,
      List.intersperse, List.flatten] at *
    simp [List.append_assoc]

/-- Claim C10: outbound command formatting — for every non-empty values
list the produced frame is
devicename sepOut command sepOut value1 sepWithin ... sepWithin valueN
sepEnd; for the empty list the size_t loop bound underflows and the
element access is out of bounds (no frame, modelled `none`), so callers
must supply at least one value. -/
theorem C10_output_command_requires_values (devicename command : String) (values : List String)
    (hne : values ≠ []) :
    (UniHub.MakeAndSendOutputCommand devicename command values).map (fun f => f.data) =
      some (devicename.data ++ [ushwords.sepOut] ++ command.data ++ [ushwords.sepOut] ++
        List.intercalate [ushwords.sepWithin] (values.map (fun v => v.data)) ++
        [ushwords.sepEnd]) ∧
    UniHub.MakeAndSendOutputCommand devicename command [] = none := by
  constructor
  · cases values with
    | nil => exact absurd rfl hne
    | cons v vs =>
      simp [UniHub.MakeAndSendOutputCommand, string_data_append, joinWithSep_data,
        List.append_assoc]
  · rfl

/-- Witness for C10 at a concrete input. -/
theorem C10_output_command_requires_values_witness :
    (UniHub.MakeAndSendOutputCommand "Shutter1" "O" ["1", "2"]).map (fun f => f.data) =
      some ("Shutter1".data ++ [ushwords.sepOut] ++ "O".data ++ [ushwords.sepOut] ++
        List.intercalate [ushwords.sepWithin] (["1", "2"].map (fun v => v.data)) ++
        [ushwords.sepEnd]) ∧
    UniHub.MakeAndSendOutputCommand "Shutter1" "O" [] = none :=
  C10_output_command_requires_values "Shutter1" "O" ["1", "2"] (by decide)

theorem scanProps_append_no_match {command : String} {vals : List String}
    {before : List mmpropertydescription} (l : List mmpropertydescription)
    (hb : ∀ q ∈ before, q.cmdAction ≠ command) :
    scanProps command vals (before ++ l) =
      (before ++ (scanProps command vals l).1, (scanProps command vals l).2) := by
  induction before with
  | nil => simp
  | cons q qs ih =>
    have hq : q.cmdAction ≠ command := hb q (by simp)
    have ihr := ih (fun r hr => hb r (by simp [hr]))
    simp only [List.cons_append, scanProps, if_neg hq, List.append_eq, ihr]

/-- Claim C4: validation boundary and atomicity — the first property
whose cmdAction matches the wire command, when Integer (with ordered
limits) or Float, commits a value equal to either limit, rejects a value
one unit below the lower or above the upper limit with ValueNotAllowed,
and every rejection leaves the property list unchanged. -/
theorem C4_validation_boundary (before after : List mmpropertydescription)
    (pd : mmpropertydescription) (command : String) (vals : List String)
    (hbefore : ∀ q ∈ before, q.cmdAction ≠ command) (hmatch : pd.cmdAction = command) :
    (pd.type = .Integer →
      ((atoiInt (vals.headD "") = pd.lowerLimitInteger ∨
        atoiInt (vals.headD "") = pd.upperLimitInteger) →
        pd.lowerLimitInteger ≤ pd.upperLimitInteger →
        scanProps command vals (before ++ pd :: after) =
          (before ++ { pd with valueInteger := atoiInt (vals.headD "") } :: after, DEVICE_OK)) ∧
      ((atoiInt (vals.headD "") = pd.lowerLimitInteger - 1 ∨
        atoiInt (vals.headD "") = pd.upperLimitInteger + 1) →
        scanProps command vals (before ++ pd :: after) =
          (before ++ pd :: after, usherrors.adp_device_command_value_not_allowed))) ∧
    (pd.type = .Float →
      ((atofQ (vals.headD "") = pd.lowerLimitFloat ∨
        atofQ (vals.headD "") = pd.upperLimitFloat) →
        pd.lowerLimitFloat ≤ pd.upperLimitFloat →
        scanProps command vals (before ++ pd :: after) =
          (before ++ { pd with valueFloat := atofQ (vals.headD "") } :: after, DEVICE_OK)) ∧
      ((atofQ (vals.headD "") = pd.lowerLimitFloat - 1 ∨
        atofQ (vals.headD "") = pd.upperLimitFloat + 1) →
        scanProps command vals (before ++ pd :: after) =
          (before ++ pd :: after, usherrors.adp_device_command_value_not_allowed))) := by
  have hstep := @scanProps_append_no_match command vals before (pd :: after) hbefore
  constructor
  · intro htype
    constructor
    · intro hv hord
      rw [hstep]
      have hcond : ¬ (atoiInt (vals.headD "") < pd.lowerLimitInteger ∨
          atoiInt (vals.headD "") > pd.upperLimitInteger) := by
        rcases hv with h | h <;> omega
      simp only [scanProps, htype]
      rw [if_pos hmatch, if_neg hcond]
    · intro hv
      rw [hstep]
      have hcond : atoiInt (vals.headD "") < pd.lowerLimitInteger ∨
          atoiInt (vals.headD "") > pd.upperLimitInteger := by
        rcases hv with h | h
        · left; omega
        · right; omega
      simp only [scanProps, htype]
      rw [if_pos hmatch, if_pos hcond]
  · intro htype
    constructor
    · intro hv hord
      rw [hstep]
      have hcond : ¬ (atofQ (vals.headD "") < pd.lowerLimitFloat ∨
          atofQ (vals.headD "") > pd.upperLimitFloat) := by
        rcases hv with h | h
        · rw [h]; push_neg; exact ⟨le_refl _, hord⟩
        · rw [h]; push_neg; exact ⟨hord, le_refl _⟩
      simp only [scanProps, htype]
      rw [if_pos hmatch, if_neg hcond]
    · intro hv
      rw [hstep]
      have hcond : atofQ (vals.headD "") < pd.lowerLimitFloat ∨
          atofQ (vals.headD "") > pd.upperLimitFloat := by
        rcases hv with h | h
        · left; rw [h]; linarith
        · right; rw [h]; linarith
      simp only [scanProps, htype]
      rw [if_pos hmatch, if_pos hcond]

/-- Witness for C4: the sample Integer property (limits 0..10) commits
the value 10 at the upper limit and rejects 11, leaving the list
unchanged; the sample Float property (limits 0..10) commits 0 at the
lower limit and rejects -1 unchanged. -/
theorem C4_validation_boundary_witness :
    scanProps "X" ["10"] [pdIntSample] =
      ([{ pdIntSample with valueInteger := 10 }], DEVICE_OK) ∧
    scanProps "X" ["11"] [pdIntSample] =
      ([pdIntSample], usherrors.adp_device_command_value_not_allowed) ∧
    scanProps "Y" ["0"] [pdFloatSample] =
      ([{ pdFloatSample with valueFloat := 0 }], DEVICE_OK) ∧
    scanProps "Y" ["-1"] [pdFloatSample] =
      ([pdFloatSample], usherrors.adp_device_command_value_not_allowed) := by
  have h10 := ((C4_validation_boundary [] [] pdIntSample "X" ["10"]
    (by simp) rfl).1 rfl).1 (Or.inr rfl) (by decide)
  have h11 := ((C4_validation_boundary [] [] pdIntSample "X" ["11"]
    (by simp) rfl).1 rfl).2 (Or.inr rfl)
  have hf0 := ((C4_validation_boundary [] [] pdFloatSample "Y" ["0"]
    (by simp) rfl).2 rfl).1 (Or.inl rfl) (by norm_num [pdFloatSample])
  have hfn := ((C4_validation_boundary [] [] pdFloatSample "Y" ["-1"]
    (by simp) rfl).2 rfl).2 (Or.inl (by
      have h : pdFloatSample.lowerLimitFloat - 1 = (-1 : ℚ) := by norm_num [pdFloatSample]
      rw [h]; exact rfl))
  have e10 : atoiInt (["10"].headD "") = (10 : Int) := rfl
  have ef0 : atofQ (["0"].headD "") = (0 : ℚ) := rfl
  rw [e10] at h10
  rw [ef0] at hf0
  refine ⟨?_, ?_, ?_, ?_⟩
  · simpa using h10
  · simpa using h11
  · simpa using hf0
  · simpa using hfn

/-- Claim C3 (amended): in ReportToDevice a wire command matching a
MethodDescriptor causes a state update only for the four method names
set/get-open, set/get-position, home and stop.  On a stage, all four of
set/get-position, home and stop run through SetPositionUm, so the
payload is validated against the stage limits in every case — including
home and stop — and an out-of-range payload is rejected with
ValueNotAllowed, leaving the position unchanged.  On a shutter, the
set/get-open payload is coerced int→bool (nonzero means open) and always
applied; the stored value therefore always lies within the 0/1 limits
and the literal guard of SetOpen can never fire. -/
theorem C3_method_updates (d : mmdevicedescription) (sst : StageState) (sh : ShutterState)
    (now : Int) (command : String) (vals : List String) (md : mmmethoddescription)
    (hfind : d.methods.find? (fun m => m.command = command) = some md)
    (hcmd : command ≠ ushwords.timeout) :
    (¬ (md.method = ushwords.set_position_um ∨ md.method = ushwords.get_position_um ∨
        md.method = ushwords.home ∨ md.method = ushwords.stop) →
      UniHub.ReportToStage d sst now command vals = (d, sst, DEVICE_OK)) ∧
    ((md.method = ushwords.set_position_um ∨ md.method = ushwords.get_position_um ∨
        md.method = ushwords.home ∨ md.method = ushwords.stop) →
      ((atofQ (vals.headD "") < sst.lowerLimit_um_ ∨
        atofQ (vals.headD "") > sst.upperLimit_um_) →
        UniHub.ReportToStage d sst now command vals =
          (d, { sst with updating := true }, usherrors.adp_device_command_value_not_allowed)) ∧
      (¬ (atofQ (vals.headD "") < sst.lowerLimit_um_ ∨
          atofQ (vals.headD "") > sst.upperLimit_um_) →
        UniHub.ReportToStage d sst now command vals =
          ((if hasProp d g_Keyword_Position then
              { d with properties := (updateFirstProp g_Keyword_Position
                  (fun p => { p with valueFloat := atofQ (vals.headD "") }) d.properties) }
            else d),
            { sst with position_um_ := atofQ (vals.headD ""), updating := false },
            DEVICE_OK))) ∧
    (¬ (md.method = ushwords.set_open ∨ md.method = ushwords.get_open) →
      UniHub.ReportToShutter d sh now command vals = (d, sh, DEVICE_OK)) ∧
    ((md.method = ushwords.set_open ∨ md.method = ushwords.get_open) →
      UniHub.ReportToShutter d sh now command vals =
        (d, { sh with open_ := atoiInt (vals.headD "") != 0, updating := false }, DEVICE_OK)) := by
  refine ⟨?_, ?_, ?_, ?_⟩
  · intro hnot
    simp only [UniHub.ReportToStage, if_neg hcmd, hfind]
    rw [if_neg hnot]
  · intro hin
    constructor
    · intro hout
      simp only [UniHub.ReportToStage, if_neg hcmd, hfind]
      rw [if_pos hin]
      simp only [UshStage.SetPositionUm]
      rw [if_pos (show True from trivial), if_pos hout]
    · intro hout
      simp only [UniHub.ReportToStage, if_neg hcmd, hfind]
      rw [if_pos hin]
      simp only [UshStage.SetPositionUm]
      rw [if_pos (show True from trivial), if_neg hout]
  · intro hnot
    simp only [UniHub.ReportToShutter, if_neg hcmd, hfind]
    rw [if_neg hnot]
  · intro hin
    simp only [UniHub.ReportToShutter, if_neg hcmd, hfind]
    rw [if_pos hin]
    simp only [UshShutter.SetOpen]
    have hguard : ¬ ((if (atoiInt (vals.headD "") != 0) = true then (1 : Int) else 0) ≠ 0 ∧
        (if (atoiInt (vals.headD "") != 0) = true then (1 : Int) else 0) ≠ 1) := by
      cases h : atoiInt (vals.headD "") != 0 <;> simp [h]
    rw [if_pos (show True from trivial), if_neg hguard]

/-- Counterexample to claim C3 as stated: on the sample stage (limits
0..100) the wire command "H" matches the method "home", and the numeric
payload 200 is NOT accepted — SetPositionUm rejects it with
ValueNotAllowed and the cached position stays 50. -/
theorem C3_counterexample :
    UniHub.ReportToStage dStageSample stStageSample 0 "H" ["200"] =
      (dStageSample, { stStageSample with updating := true },
        usherrors.adp_device_command_value_not_allowed) ∧
    ({ stStageSample with updating := true } : StageState).position_um_ =
      stStageSample.position_um_ ∧
    usherrors.adp_device_command_value_not_allowed ≠ DEVICE_OK := by
  refine ⟨rfl, rfl, by decide⟩

/-- Witness for C3 at a concrete input: an in-range home payload on the
sample stage is committed. -/
theorem C3_method_updates_witness :
    UniHub.ReportToStage dStageSample stStageSample 0 "H" ["60"] =
      (dStageSample, { stStageSample with position_um_ := 60, updating := false }, DEVICE_OK) := by
  have h := ((C3_method_updates dStageSample stStageSample {} 0 "H" ["60"]
    ⟨ushwords.home, "H"⟩ rfl (by decide)).2.1
    (Or.inr (Or.inr (Or.inl rfl)))).2 (by
      rw [show atofQ (["60"].headD "") = (60 : ℚ) from rfl]
      norm_num [stStageSample])
  rw [show atofQ (["60"].headD "") = (60 : ℚ) from rfl] at h
  simpa [hasProp, dStageSample] using h

/-- Claim C7: inbound frame validation — a frame splitting into a field
count different from 3 is rejected with StringNotRecognized, a 3-field
frame naming no known instrument is rejected with DeviceNotRecognized,
and in both cases only the last-error state changes: the registry and
the busy state of every instrument are untouched and nothing is forwarded. -/
theorem C7_inbound_frame_validation (st : PollState) (now : Int) (ans : String) :
    ((SplitStringIntoWords ans ushwords.sepIn).length ≠ 3 →
      BusyThread.dataReceivedStep st now ans =
        some ({ st with lastError := usherrors.adp_string_not_recognized,
                        lastErrorText := ans }, none) ∧
      ({ st with lastError := usherrors.adp_string_not_recognized,
                 lastErrorText := ans } : PollState).registry = st.registry ∧
      ({ st with lastError := usherrors.adp_string_not_recognized,
                 lastErrorText := ans } : PollState).instruments = st.instruments) ∧
    ((SplitStringIntoWords ans ushwords.sepIn).length = 3 →
      ¬ ((SplitStringIntoWords ans ushwords.sepIn).headD "") ∈
        st.instruments.map (fun i => i.name) →
      BusyThread.dataReceivedStep st now ans =
        some ({ st with lastError := usherrors.adp_device_not_recognized,
                        lastErrorText := ans }, none) ∧
      ({ st with lastError := usherrors.adp_device_not_recognized,
                 lastErrorText := ans } : PollState).registry = st.registry ∧
      ({ st with lastError := usherrors.adp_device_not_recognized,
                 lastErrorText := ans } : PollState).instruments = st.instruments) := by
  constructor
  · intro hlen
    have hchk : UniHub.CheckIncomingCommand (st.instruments.map (fun i => i.name))
        (SplitStringIntoWords ans ushwords.sepIn) = usherrors.adp_string_not_recognized := by
      simp [UniHub.CheckIncomingCommand, hlen]
    refine ⟨?_, rfl, rfl⟩
    simp only [BusyThread.dataReceivedStep, hchk]
    rw [if_pos (show usherrors.adp_string_not_recognized ≠ DEVICE_OK from by decide)]
  · intro hlen hmem
    have hchk : UniHub.CheckIncomingCommand (st.instruments.map (fun i => i.name))
        (SplitStringIntoWords ans ushwords.sepIn) = usherrors.adp_device_not_recognized := by
      unfold UniHub.CheckIncomingCommand
      rw [if_neg (show ¬ ((SplitStringIntoWords ans ushwords.sepIn).length ≠ 3) from
        by simp [hlen]), if_pos hmem]
    refine ⟨?_, rfl, rfl⟩
    simp only [BusyThread.dataReceivedStep, hchk]
    rw [if_pos (show usherrors.adp_device_not_recognized ≠ DEVICE_OK from by decide)]

/-- Witness for C7 at concrete inputs: a 2-field frame is rejected as
unparseable; a 3-field frame naming the unknown instrument "Ghost" is
rejected as unrecognized; the sample state is otherwise untouched. -/
theorem C7_inbound_frame_validation_witness :
    BusyThread.dataReceivedStep pollSample 0 "Dev1<C" =
      some ({ pollSample with lastError := usherrors.adp_string_not_recognized,
                              lastErrorText := "Dev1<C" }, none) ∧
    BusyThread.dataReceivedStep pollSample 0 "Ghost<X<0" =
      some ({ pollSample with lastError := usherrors.adp_device_not_recognized,
                              lastErrorText := "Ghost<X<0" }, none) := by
  have h1 := (C7_inbound_frame_validation pollSample 0 "Dev1<C").1 (by decide)
  have h2 := (C7_inbound_frame_validation pollSample 0 "Ghost<X<0").2 (by decide)
    (by simp [pollSample, SplitStringIntoWords, splitChars, ushwords.sepIn])
  exact ⟨h1.1, h2.1⟩

/-- Claim C2 (amended): after a frame passes validation and the firmware
error code is stripped, the remaining values are forwarded to
ReportToDevice exactly when the code is classified ok or busy and the
values are non-empty; for any other nonzero code the values are
discarded even when non-empty. -/
theorem C2_value_forwarding (st : PollState) (now : Int) (ans : String) (err : Int)
    (st1 : PollState) (fwd : Option (String × String × List String))
    (hchk : UniHub.CheckIncomingCommand (st.instruments.map (fun i => i.name))
      (SplitStringIntoWords ans ushwords.sepIn) = DEVICE_OK)
    (herr : stoiOpt ((SplitStringIntoWords ((SplitStringIntoWords ans ushwords.sepIn).getD 2 "")
      ushwords.sepWithin).headD "") = some err)
    (hrun : BusyThread.dataReceivedStep st now ans = some (st1, fwd)) :
    fwd = if (err = usherrors.ctr_ok ∨ err = usherrors.ctr_busy) ∧
        (SplitStringIntoWords ((SplitStringIntoWords ans ushwords.sepIn).getD 2 "")
          ushwords.sepWithin).tail ≠ [] then
      some ((SplitStringIntoWords ans ushwords.sepIn).headD "",
        (SplitStringIntoWords ans ushwords.sepIn).getD 1 "",
        (SplitStringIntoWords ((SplitStringIntoWords ans ushwords.sepIn).getD 2 "")
          ushwords.sepWithin).tail)
    else none := by
  simp only [BusyThread.dataReceivedStep, hchk] at hrun
  rw [if_neg (show ¬ (DEVICE_OK ≠ DEVICE_OK) from by simp)] at hrun
  simp only [herr, Option.some.injEq, Prod.mk.injEq] at hrun
  exact hrun.2.symm

/-- Counterexample to claim C2 as stated: in the sample poll state the
frame Dev1 sepIn C sepIn 9 sepWithin 5 passes validation, carries the
nonzero non-busy firmware code 9 and the non-empty stripped value list
["5"], yet nothing is forwarded to ReportToDevice (second component
none): forwarding is not independent of the error classification. -/
theorem C2_counterexample :
    BusyThread.dataReceivedStep pollSample 0 "Dev1<C<9~5" =
      some ({ pollSample with
                instruments := setBusyFirst "Dev1" false pollSample.instruments,
                lastError := 9, lastErrorText := "Dev1<C<9~5" }, none) ∧
    (SplitStringIntoWords ((SplitStringIntoWords "Dev1<C<9~5" ushwords.sepIn).getD 2 "")
      ushwords.sepWithin).tail = ["5"] := ⟨rfl, rfl⟩

/-- Witness for C2 at a concrete input: a busy-code frame with a
remaining value is forwarded. -/
theorem C2_value_forwarding_witness :
    (some ("Dev1", "C", ["7"]) : Option (String × String × List String)) =
      if ((1 : Int) = usherrors.ctr_ok ∨ (1 : Int) = usherrors.ctr_busy) ∧
          (SplitStringIntoWords ((SplitStringIntoWords "Dev1<C<1~7" ushwords.sepIn).getD 2 "")
            ushwords.sepWithin).tail ≠ [] then
        some ((SplitStringIntoWords "Dev1<C<1~7" ushwords.sepIn).headD "",
          (SplitStringIntoWords "Dev1<C<1~7" ushwords.sepIn).getD 1 "",
          (SplitStringIntoWords ((SplitStringIntoWords "Dev1<C<1~7" ushwords.sepIn).getD 2 "")
            ushwords.sepWithin).tail)
      else none :=
  C2_value_forwarding pollSample 5 "Dev1<C<1~7" 1
    { pollSample with instruments := setBusyTimeFirst "Dev1" 5 pollSample.instruments }
    (some ("Dev1", "C", ["7"])) rfl rfl rfl

theorem setBusyFirst_append {pre post : List InstrumentState} {j : InstrumentState}
    {nm : String} {b : Bool} (hpre : ∀ i ∈ pre, i.name ≠ nm) (hj : j.name = nm) :
    setBusyFirst nm b (pre ++ j :: post) = pre ++ { j with isBusy := b } :: post := by
  induction pre with
  | nil => simp [setBusyFirst, hj]
  | cons q qs ih =>
    have hq : q.name ≠ nm := hpre q (by simp)
    simp only [List.cons_append, setBusyFirst, if_neg hq]
    rw [show (qs.append (j :: post)) = qs ++ j :: post from rfl,
      ih (fun i hi => hpre i (by simp [hi]))]

/-- Claim C8 (amended): in a NoActivity poll cycle, when no busy
instrument has strictly exceeded its timeout — in particular at a cycle
falling exactly on a deadline — nothing changes and no error is raised;
when some busy instrument has strictly exceeded its timeout, exactly the
first such instrument in registry order is marked not-busy and
LostCommunication is raised for it, while every other instrument
(including later timed-out ones, which stay busy until a later cycle) is
untouched. -/
theorem C8_one_timeout_per_cycle (insts : List InstrumentState) (now : Int)
    (hnodup : (insts.map (fun i => i.name)).Nodup) :
    ((∀ i ∈ insts, ¬ (i.isBusy = true ∧ now - i.lastCommandTime > i.timeoutUs)) →
      BusyThread.noActivityStep insts now = (insts, none)) ∧
    (∀ pre j post, insts = pre ++ j :: post →
      (∀ i ∈ pre, ¬ (i.isBusy = true ∧ now - i.lastCommandTime > i.timeoutUs)) →
      j.isBusy = true → now - j.lastCommandTime > j.timeoutUs →
      BusyThread.noActivityStep insts now =
        (pre ++ { j with isBusy := false } :: post, some j.name)) := by
  constructor
  · intro hnone
    have hfind : ((insts.filter (fun i => i.isBusy)).find?
        (fun i => now - i.lastCommandTime > i.timeoutUs)) = none := by
      rw [List.find?_eq_none]
      intro x hx
      have hxb : x.isBusy = true := List.of_mem_filter hx
      have hxm : x ∈ insts := List.mem_of_mem_filter hx
      have := hnone x hxm
      simp only [decide_eq_true_eq]
      exact fun hlt => this ⟨hxb, hlt⟩
    simp [BusyThread.noActivityStep, hfind]
  · intro pre j post heq hpre hjb hjt
    subst heq
    have hfind : (((pre ++ j :: post).filter (fun i => i.isBusy)).find?
        (fun i => now - i.lastCommandTime > i.timeoutUs)) = some j := by
      rw [List.filter_append, List.find?_append]
      have h1 : ((pre.filter (fun i => i.isBusy)).find?
          (fun i => now - i.lastCommandTime > i.timeoutUs)) = none := by
        rw [List.find?_eq_none]
        intro x hx
        have hxb : x.isBusy = true := List.of_mem_filter hx
        have hxm : x ∈ pre := List.mem_of_mem_filter hx
        have := hpre x hxm
        simp only [decide_eq_true_eq]
        exact fun hlt => this ⟨hxb, hlt⟩
      have h2 : (j :: post).filter (fun i => i.isBusy) =
          j :: post.filter (fun i => i.isBusy) := by
        simp [List.filter_cons, hjb]
      rw [h1, h2]
      simp [List.find?_cons_of_pos, hjt]
    have hjpre : ∀ i ∈ pre, i.name ≠ j.name := by
      intro i hi
      rw [List.map_append, List.map_cons, List.nodup_append] at hnodup
      intro hcontra
      exact hnodup.2.2 (List.mem_map_of_mem _ hi) (by simp [hcontra])
    simp only [BusyThread.noActivityStep, hfind]
    rw [setBusyFirst_append hjpre rfl]

/-- Counterexample to claim C8 as stated: for the timeout
scenario (busy, timeout 200 ms, last command at t0 = 0) a NoActivity
cycle exactly at the deadline t0 + 200 ms — a cycle "at or after the
deadline" — clears nothing and raises no LostCommunication, because the
code requires elapsed time strictly greater than the timeout. -/
theorem C8_counterexample :
    BusyThread.noActivityStep [instDeadlineSample]
        (instDeadlineSample.lastCommandTime + instDeadlineSample.timeoutUs) =
      ([instDeadlineSample], none) ∧
    instDeadlineSample.isBusy = true := ⟨rfl, rfl⟩

/-- Witness for C8 at a concrete input: one microsecond after the
deadline the instrument is cleared and the error raised. -/
theorem C8_one_timeout_per_cycle_witness :
    BusyThread.noActivityStep [instDeadlineSample] 200001 =
      ([{ instDeadlineSample with isBusy := false }], some "S1") := by
  have h := (C8_one_timeout_per_cycle [instDeadlineSample] 200001 (by simp)).2
    [] instDeadlineSample [] rfl (by simp) rfl (by decide)
  simpa [instDeadlineSample] using h

theorem reason_append_ne (a msg s : String) (h : msg ≠ "") : a ++ msg ++ s ≠ "" := by
  intro hcontra
  have hd : (a ++ msg ++ s).data = ([] : List Char) := by rw [hcontra]
  rw [string_data_append, string_data_append] at hd
  rcases List.append_eq_nil.mp hd with ⟨h1, _⟩
  rcases List.append_eq_nil.mp h1 with ⟨_, h2⟩
  exact h (String.ext (by simpa using h2))

theorem parsePlainProp_spec (dd : mmdevicedescription) (s : String) (words : List String)
    (dd1 : mmdevicedescription) (brk : Bool) (h : parsePlainProp dd s words = some (dd1, brk)) :
    (brk = true → dd1.isValid = false ∧ dd1.reasonWhyInvalid ≠ "" ∧
      dd1.properties = dd.properties) ∧
    (brk = false → dd1.isValid = dd.isValid ∧ dd1.reasonWhyInvalid = dd.reasonWhyInvalid ∧
      ∃ pd, PropOk pd ∧ dd1.properties = dd.properties ++ [pd]) := by
  unfold parsePlainProp mkInvalid at h
  repeat' (first | split at h | dsimp only at h)
  all_goals try exact Option.noConfusion h
  all_goals (
    injection h with hpair
    injection hpair with ha hb
    subst ha
    subst hb
    constructor <;> intro hb
    all_goals try exact Bool.noConfusion hb
    all_goals (
      first
      | exact ⟨rfl, reason_append_ne _ _ _ (by decide), rfl⟩
      | (refine ⟨rfl, rfl, _, ?_, rfl⟩
         intro ht hro
         first
         | exact SplitStringIntoWords_ne_nil _ _
         | exact MMPropertyType.noConfusion ht
         | exact Bool.noConfusion hro)))

theorem parseActionProp_spec (dd : mmdevicedescription) (s : String) (words : List String)
    (dd1 : mmdevicedescription) (brk : Bool) (h : parseActionProp dd s words = some (dd1, brk)) :
    (brk = true → dd1.isValid = false ∧ dd1.reasonWhyInvalid ≠ "" ∧
      dd1.properties = dd.properties) ∧
    (brk = false → dd1.isValid = dd.isValid ∧ dd1.reasonWhyInvalid = dd.reasonWhyInvalid ∧
      ∃ pd, PropOk pd ∧ dd1.properties = dd.properties ++ [pd]) := by
  unfold parseActionProp mkInvalid at h
  repeat' (first | split at h | dsimp only at h)
  all_goals try exact Option.noConfusion h
  all_goals (
    injection h with hpair
    injection hpair with ha hb
    subst ha
    subst hb
    constructor <;> intro hb
    all_goals try exact Bool.noConfusion hb
    all_goals (
      first
      | exact ⟨rfl, reason_append_ne _ _ _ (by decide), rfl⟩
      | (refine ⟨rfl, rfl, _, ?_, rfl⟩
         intro ht hro
         first
         | exact SplitStringIntoWords_ne_nil _ _
         | exact MMPropertyType.noConfusion ht
         | exact Bool.noConfusion hro)))

theorem processSetupLine_spec (dd : mmdevicedescription) (s : String)
    (dd1 : mmdevicedescription) (brk : Bool) (h : processSetupLine dd s = some (dd1, brk)) :
    (brk = true → dd1.isValid = false ∧ dd1.reasonWhyInvalid ≠ "" ∧
      dd1.properties = dd.properties) ∧
    (brk = false → dd1.isValid = dd.isValid ∧ dd1.reasonWhyInvalid = dd.reasonWhyInvalid ∧
      (dd1.properties = dd.properties ∨
        ∃ pd, PropOk pd ∧ dd1.properties = dd.properties ++ [pd])) := by
  unfold processSetupLine mkInvalid at h
  repeat' (first | split at h | dsimp only at h)
  all_goals try exact Option.noConfusion h
  all_goals (
    first
    | exact ⟨fun hb => (parsePlainProp_spec _ _ _ _ _ h).1 hb,
        fun hb =>
          ⟨((parsePlainProp_spec _ _ _ _ _ h).2 hb).1,
           ((parsePlainProp_spec _ _ _ _ _ h).2 hb).2.1,
           Or.inr ((parsePlainProp_spec _ _ _ _ _ h).2 hb).2.2⟩⟩
    | exact ⟨fun hb => (parseActionProp_spec _ _ _ _ _ h).1 hb,
        fun hb =>
          ⟨((parseActionProp_spec _ _ _ _ _ h).2 hb).1,
           ((parseActionProp_spec _ _ _ _ _ h).2 hb).2.1,
           Or.inr ((parseActionProp_spec _ _ _ _ _ h).2 hb).2.2⟩⟩
    | (injection h with hpair
       injection hpair with ha hb
       subst ha
       subst hb
       constructor <;> intro hb
       all_goals try exact Bool.noConfusion hb
       all_goals (
         first
         | exact ⟨rfl, reason_append_ne _ _ _ (by decide), rfl⟩
         | exact ⟨rfl, rfl, Or.inl rfl⟩)))

theorem vectorstrGo_inv (vs : List String) : ∀ dd dd2 : mmdevicedescription,
    vectorstrGo dd vs = some dd2 →
    ((dd.isValid = true → (dd2.isValid = true ∨ dd2.reasonWhyInvalid ≠ "")) ∧
     ((∀ pd ∈ dd.properties, PropOk pd) → ∀ pd ∈ dd2.properties, PropOk pd)) := by
  induction vs with
  | nil =>
    intro dd dd2 h
    simp only [vectorstrGo, Option.some.injEq] at h
    subst h
    exact ⟨fun hv => Or.inl hv, fun hp => hp⟩
  | cons s rest ih =>
    intro dd dd2 h
    simp only [vectorstrGo] at h
    cases hp : processSetupLine dd s with
    | none => rw [hp] at h; exact absurd h (by simp)
    | some p =>
      obtain ⟨dd1, brk⟩ := p
      rw [hp] at h
      dsimp only at h
      have hspec := processSetupLine_spec dd s dd1 brk hp
      cases brk with
      | true =>
        simp at h
        subst h
        obtain ⟨hval, hreason, hprops⟩ := hspec.1 rfl
        refine ⟨fun _ => Or.inr hreason, fun hok => ?_⟩
        rw [hprops]
        exact hok
      | false =>
        rw [if_neg (show ¬ ((false : Bool) = true) from by simp)] at h
        obtain ⟨hval, hreason, hprops⟩ := hspec.2 rfl
        have ihr := ih dd1 dd2 h
        refine ⟨fun hv => ihr.1 (by rw [hval, hv]), fun hok => ?_⟩
        refine ihr.2 ?_
        rcases hprops with heq | ⟨pd, hpd, heq⟩
        · rw [heq]; exact hok
        · rw [heq]
          intro q hq
          rcases List.mem_append.mp hq with hq1 | hq2
          · exact hok q hq1
          · rw [List.mem_singleton.mp hq2]; exact hpd

theorem vectorstr_valid_or_reason (vs : List String) (dd : mmdevicedescription)
    (h : VectorstrToDeviceDescription vs = some dd) :
    dd.isValid = true ∨ dd.reasonWhyInvalid ≠ "" :=
  (vectorstrGo_inv vs {} dd h).1 rfl

theorem vectorstr_string_prop_ok (vs : List String) (dd : mmdevicedescription)
    (h : VectorstrToDeviceDescription vs = some dd) :
    ∀ pd ∈ dd.properties, PropOk pd :=
  (vectorstrGo_inv vs {} dd h).2 (by simp)

theorem nameCount_cons (l : String) (ls : List String) :
    nameCount (l :: ls) =
      (if firstField l = g_Keyword_Name then 1 else 0) + nameCount ls := by
  by_cases hn : firstField l = g_Keyword_Name
  · simp [nameCount, List.filter_cons, hn, Nat.add_comm]
  · simp [nameCount, List.filter_cons, hn]

theorem populateGo_length (rest : List String) : ∀ acc group out,
    group ≠ [] → populateGo acc group rest = some out →
    out.length = acc.length + nameCount rest + 1 := by
  induction rest with
  | nil =>
    intro acc group out hg h
    simp only [populateGo, Option.map_eq_some'] at h
    obtain ⟨dd, _, hout⟩ := h
    subst hout
    simp [nameCount]
  | cons line rs ih =>
    intro acc group out hg h
    simp only [populateGo] at h
    by_cases hn : firstField line = g_Keyword_Name
    · rw [if_pos ⟨hn, hg⟩] at h
      cases hv : VectorstrToDeviceDescription group with
      | none => rw [hv] at h; exact absurd h (by simp)
      | some dd =>
        rw [hv] at h
        have := ih (acc ++ [dd]) [line] out (by simp) h
        rw [nameCount_cons, if_pos hn]
        simp only [List.length_append, List.length_cons, List.length_nil] at this ⊢
        omega
    · rw [if_neg (by intro hc; exact hn hc.1)] at h
      have := ih acc (group ++ [line]) out (by simp) h
      rw [nameCount_cons, if_neg hn]
      omega

theorem populateGo_valid (rest : List String) : ∀ acc group out,
    populateGo acc group rest = some out →
    (∀ d ∈ acc, d.isValid = true ∨ d.reasonWhyInvalid ≠ "") →
    ∀ d ∈ out, d.isValid = true ∨ d.reasonWhyInvalid ≠ "" := by
  induction rest with
  | nil =>
    intro acc group out h hacc
    simp only [populateGo, Option.map_eq_some'] at h
    obtain ⟨dd, hdd, hout⟩ := h
    subst hout
    intro d hd
    rcases List.mem_append.mp hd with hd1 | hd2
    · exact hacc d hd1
    · rw [List.mem_singleton.mp hd2]
      exact vectorstr_valid_or_reason group dd hdd
  | cons line rs ih =>
    intro acc group out h hacc
    simp only [populateGo] at h
    split at h
    · cases hv : VectorstrToDeviceDescription group with
      | none => rw [hv] at h; exact absurd h (by simp)
      | some dd =>
        rw [hv] at h
        refine ih (acc ++ [dd]) [line] out h ?_
        intro d hd
        rcases List.mem_append.mp hd with hd1 | hd2
        · exact hacc d hd1
        · rw [List.mem_singleton.mp hd2]
          exact vectorstr_valid_or_reason group dd hv
    · exact ih acc (group ++ [line]) out h hacc

/-- Claim C1: Schema Builder totality — for a well-formed setup-line
stream (non-empty up to the "list-end" sentinel, opening with a "Name"
line, and with every group convertible without a C++ exception), the
number of descriptors appended to the registry equals the number of
lines whose first field is "Name", and every appended descriptor is
either marked valid or carries a non-empty reasonWhyInvalid. -/
theorem C1_schema_builder_totality (stream : List String) (descs : List mmdevicedescription)
    (hne : stream.takeWhile (fun l => l ≠ ushwords.device_list_end) ≠ [])
    (hname : firstField ((stream.takeWhile (fun l => l ≠ ushwords.device_list_end)).headD "") =
      g_Keyword_Name)
    (hsome : PopulateDeviceDescriptionList stream = some descs) :
    descs.length = nameCount (stream.takeWhile (fun l => l ≠ ushwords.device_list_end)) ∧
    ∀ d ∈ descs, d.isValid = true ∨ d.reasonWhyInvalid ≠ "" := by
  unfold PopulateDeviceDescriptionList at hsome
  cases hl : stream.takeWhile (fun l => l ≠ ushwords.device_list_end) with
  | nil => exact absurd hl hne
  | cons l0 rest =>
    rw [hl] at hsome hname
    simp only [List.headD_cons] at hname
    have hstep : populateGo [] [l0] rest = some descs := by
      simpa only [populateGo, if_neg (fun hc : _ ∧ ([] : List String) ≠ [] => hc.2 rfl),
        List.nil_append] using hsome
    constructor
    · have hlen2 := populateGo_length rest [] [l0] descs (by simp) hstep
      simp only [List.length_nil] at hlen2
      rw [nameCount_cons, if_pos hname]
      omega
    · exact populateGo_valid rest [] [l0] descs hstep (by simp)

/-- Witness for C1 on the sample stream: one descriptor for one "Name"
line, and it is valid. -/
theorem C1_schema_builder_totality_witness :
    ([ddShutterSample] : List mmdevicedescription).length =
      nameCount (streamSample.takeWhile (fun l => l ≠ ushwords.device_list_end)) ∧
    ∀ d ∈ [ddShutterSample], d.isValid = true ∨ d.reasonWhyInvalid ≠ "" :=
  C1_schema_builder_totality streamSample [ddShutterSample] (by decide) rfl rfl

/-- Claim C9 (amended): every descriptor produced by the Schema Builder
satisfies the String half of the bounds invariant — each non-read-only
String property has a non-empty allowed_values list (the split of the
allowed-values field never yields an empty vector).  The builder does
not validate the ordering of numeric bounds: the two bounds are stored
verbatim, so lower_limit ≤ upper_limit holds only when the setup line
lists them in nondecreasing order (see the counterexample). -/
theorem C9_descriptor_bounds (vs : List String) (dd : mmdevicedescription)
    (h : VectorstrToDeviceDescription vs = some dd) :
    ∀ pd ∈ dd.properties, pd.type = .String → pd.isReadOnly = false →
      pd.allowedValues ≠ [] :=
  vectorstr_string_prop_ok vs dd h

/-- Witness for C9 on a concrete descriptor with a non-read-only String
property. -/
theorem C9_descriptor_bounds_witness : pdStrSample.allowedValues ≠ [] :=
  C9_descriptor_bounds ["Name,Shutter1", "PropertyString,P,a,false,a~b"] ddStrSample rfl
    pdStrSample (by simp [ddStrSample]) rfl rfl

/-- Counterexample to claim C9 as stated: the setup line
PropertyInteger,P,0,false,5~3 produces a valid descriptor whose
non-read-only Integer property has lower_limit 5 greater than
upper_limit 3 — the builder performs no ordering check on numeric
bounds. -/
theorem C9_counterexample :
    (VectorstrToDeviceDescription ["Name,Shutter1", "PropertyInteger,P,0,false,5~3"]).map
        (fun dd => (dd.isValid, dd.properties.map
          (fun pd => (pd.isReadOnly, pd.lowerLimitInteger, pd.upperLimitInteger)))) =
      some (true, [(false, 5, 3)]) ∧ ¬ ((5 : Int) ≤ 3) := ⟨rfl, by decide⟩

/-- Claim C6: kind derivation.  The prefix match against the five kind
tags and the invalid-with-reason fallback behave as claimed, but for the
Generic tag the code is wrong: ush.cpp line 895 assigns the
MM::DeviceType enumerator MM::GenericDevice — not the string "Generic" —
to the std::string type field, which resolves to the char overload of
operator= and stores the one-character string of the enumerator code.
The resulting type never equals "Generic", so the strcmp("Generic", ...)
dispatch in InitializeModuleData (line 82) can never match a discovered
Generic device. -/
theorem C6_generic_kind_code_bug :
    VectorstrToDeviceDescription ["Name,GenericSensor"] =
      some { name := "GenericSensor", type := String.mk [Char.ofNat mmGenericDeviceEnum],
             isValid := true } ∧
    String.mk [Char.ofNat mmGenericDeviceEnum] ≠ kindGeneric ∧
    (VectorstrToDeviceDescription ["Name,Shutter1"]).map (fun dd => dd.type) =
      some g_Keyword_CoreShutter ∧
    (VectorstrToDeviceDescription ["Name,Unknown1"]).map
        (fun dd => (dd.isValid, dd.reasonWhyInvalid)) =
      some (false, "Unable to determine device type for Name,Unknown1") :=
  ⟨rfl, by decide, rfl, rfl⟩

end Ush
